import Mathlib

set_option maxHeartbeats 1000000
set_option maxRecDepth 100000

/-!
Verification development for the Vuddy backend conversation orchestrator.

The definitions below are a shallow embedding of the Python sources:
  - `backend/tools.py`    : tool registry and dispatcher (`execute_tool`),
  - `backend/brain.py`    : the turn pipeline (`process_message`), history
                            buffer (`_chat_history` handling) and response
                            shaping,
  - `backend/main.py`     : the per-connection session controller
                            (`websocket_endpoint`, `run_turn`,
                            `cancel_current_turn`, `set_idle_state`).

External collaborators (the LLM HTTP client, the ElevenLabs synthesizer,
the JSON-backed data stores, the hardware actuator) are modelled as
oracle functions collected in an `Env` record, matching the behaviour
visible at their call sites: the LLM call can return a response or raise,
`elevenlabs_tts.synthesize` catches all of its own exceptions and returns
an optional file path, `SimHardware.set_led_state` never raises.

Cooperative cancellation is modelled the way asyncio delivers it: every
`await` in the pipeline is a numbered suspension point, and an
`Env.cancelAt` value of `some k` means `CancelledError` is raised at the
k-th suspension point of the turn task (0-based), exactly as when
`cancel_current_turn` cancels the task while it is suspended there.
-/

namespace Vuddy

/-- Raw tool-call arguments as delivered by the reasoning service inside
`tool_call["function"]["arguments"]`: either an unparsed JSON string or an
already-parsed mapping (argument values abstracted to strings). -/
inductive RawArgs where
  | str (s : String)
  | obj (d : List (String × String))

deriving instance DecidableEq for RawArgs

/-- One structured tool invocation, i.e. one element of
`response["tool_calls"]` in `brain.process_message`. The `.get` chains with
defaults in the source are reflected by the field defaults. -/
structure ToolCall where
  name : String := ""
  arguments : RawArgs := RawArgs.obj []

deriving instance DecidableEq for ToolCall

/-- A chat message dict as used in `brain._build_messages` and the tool
loop: `role`, `content`, and the optional `tool_calls` list. -/
structure Message where
  role : String
  content : String
  tool_calls : List ToolCall := []

deriving instance DecidableEq for Message

/-- Outbound WebSocket events, one constructor per `type` value emitted by
`brain.py` / `main.py` (see `WS_TYPES_OUT` in `constants.py`).
`assistantText` carries the optional `tool_results` list; the empty list
models the absent key. -/
inductive Event where
  | assistantState (state : String)
  | toolStatus (tool : String) (status : String)
  | assistantText (text : String) (tool_results : List (String × String))
  | assistantAudioReady (audio_url : String) (format : String)
  | error (message : String) (recoverable : Bool)

deriving instance DecidableEq for Event

/-- A tool-result dict as produced by the tool providers and the dispatcher
in `tools.py`. `ok` and `error` are the dispatcher-level fields; the other
optional fields are the payload keys `_summarize_tool_result` reads
(`events`, `id`, `end_time`, `elapsed_min`), each `none` when the key is
absent. -/
structure ToolResult where
  ok : Bool
  error : Option String := none
  events : List String := []
  id : Option String := none
  end_time : Option String := none
  elapsed_min : Option String := none

deriving instance DecidableEq for ToolResult

/-- `TOOL_NAMES` from `backend/constants.py`. -/
def TOOL_NAMES : List String :=
  ["get_events", "get_recommendations", "get_calendar_summary",
   "add_calendar_item", "start_study_session", "stop_study_session",
   "spotify_search_link"]

/-- `MAX_TOOL_CALLS_PER_TURN = 2` from `backend/tools.py`. -/
def MAX_TOOL_CALLS_PER_TURN : Nat := 2

/-- `MAX_RETRIES = 1` from `backend/tools.py`. -/
def MAX_RETRIES : Nat := 1

/-- `MAX_HISTORY = 10` from `backend/brain.py`. -/
def MAX_HISTORY : Nat := 10

/-- `MAX_RESPONSE_CHARS = 480` from `backend/brain.py`. -/
def MAX_RESPONSE_CHARS : Nat := 480

/-- Outcome of one attempt of the underlying capability provider inside
`execute_tool`: the awaited `_run_tool` either returns a result dict,
exceeds the `asyncio.wait_for` deadline (`asyncio.TimeoutError`), or
raises some other exception with message `msg`. -/
inductive ToolAttempt where
  | success (r : ToolResult)
  | timeout
  | fault (msg : String)

deriving instance DecidableEq for ToolAttempt

/-- The `for attempt in range(MAX_RETRIES + 1)` loop of
`tools.execute_tool`, with the provider behaviour abstracted as `beh`
(attempt number to outcome). Returns the result dict together with the
number of provider attempts consumed. On success the result is returned
as is; on `TimeoutError` the loop retries while `attempt < MAX_RETRIES`
and otherwise returns `{ok: False, error: "timeout"}`; on any other
exception it likewise retries and otherwise returns
`{ok: False, error: str(e)}`. -/
def retry_loop (beh : Nat → ToolAttempt) (attempt : Nat) : ToolResult × Nat :=
  match beh attempt with
  | ToolAttempt.success r => (r, attempt + 1)
  | ToolAttempt.timeout =>
      if h : attempt < MAX_RETRIES then retry_loop beh (attempt + 1)
      else ({ ok := false, error := some "timeout" }, attempt + 1)
  | ToolAttempt.fault m =>
      if h : attempt < MAX_RETRIES then retry_loop beh (attempt + 1)
      else ({ ok := false, error := some m }, attempt + 1)
termination_by MAX_RETRIES + 1 - attempt
decreasing_by
  all_goals simp_wf
  all_goals omega

/-- `tools.execute_tool(tool_name, arguments)`: a name outside `TOOL_NAMES`
returns `{ok: False, error: f"Unknown tool: {tool_name}"}` before the retry
loop runs (zero attempts consumed); otherwise the retry loop runs starting
at attempt 0. The second component counts provider attempts. -/
def execute_tool (name : String) (beh : Nat → ToolAttempt) : ToolResult × Nat :=
  if name ∈ TOOL_NAMES then retry_loop beh 0
  else ({ ok := false, error := some ("Unknown tool: " ++ name) }, 0)

/-- The apology substituted for an empty LLM response in
`brain.process_message`. -/
def APOLOGY_TEXT : String :=
  "I'm sorry, I couldn't generate a response. Could you try asking again?"

/-- Python `str.rstrip()` (strip trailing whitespace), on the char list. -/
def py_rstrip (s : String) : String :=
  String.mk ((s.data.reverse.dropWhile Char.isWhitespace).reverse)

/-- Python slicing `s[:n]`. -/
def py_take (s : String) (n : Nat) : String :=
  String.mk (s.data.take n)

/-- Python `s.endswith(('.', '!', '?'))`. -/
def ends_sentence (s : String) : Bool :=
  match s.data.reverse with
  | [] => false
  | c :: _ => c == '.' || c == '!' || c == '?'

/-- The response-shaping block of `brain.process_message`: an empty
`content` is replaced by the apology; content longer than
`MAX_RESPONSE_CHARS` is cut to 480 chars, right-stripped, and given a
trailing `"..."` unless it already ends in sentence punctuation. -/
def shape_response (content : String) : String :=
  if content = "" then APOLOGY_TEXT
  else if MAX_RESPONSE_CHARS < content.length then
    let t := py_rstrip (py_take content MAX_RESPONSE_CHARS)
    if ends_sentence t then t else t ++ "..."
  else content

/-- The `while len(_chat_history) > MAX_HISTORY: _chat_history.pop(0)` trim
loop of `brain.process_message`, as structural recursion popping the front
element while the length exceeds the cap. -/
def trim_history : List Message → List Message
  | [] => []
  | m :: rest =>
      if MAX_HISTORY < (m :: rest).length then trim_history rest else m :: rest

/-- The history update on the successful completion path of
`brain.process_message`: append the user message and the assistant
message, then trim to the last `MAX_HISTORY` entries. -/
def update_history (h : List Message) (userText assistantText : String) :
    List Message :=
  trim_history
    (h ++ [{ role := "user", content := userText },
           { role := "assistant", content := assistantText }])

/-- `brain._summarize_tool_result`. -/
def summarize_tool_result (tool_name : String) (result : ToolResult) : String :=
  if !result.ok then
    tool_name ++ " failed: " ++ result.error.getD "unknown error"
  else if tool_name == "get_events" then
    let count := result.events.length
    "Found " ++ toString count ++ " event" ++ (if count != 1 then "s" else "")
  else if tool_name == "get_recommendations" then
    let count := result.events.length
    "Found " ++ toString count ++ " recommendation" ++ (if count != 1 then "s" else "")
  else if tool_name == "get_calendar_summary" then
    let count := result.events.length
    "Found " ++ toString count ++ " upcoming item" ++ (if count != 1 then "s" else "")
  else if tool_name == "add_calendar_item" then
    "Added to calendar (ID: " ++ result.id.getD "?" ++ ")"
  else if tool_name == "start_study_session" then
    "Started study session until " ++ result.end_time.getD "?"
  else if tool_name == "stop_study_session" then
    "Session ended after " ++ result.elapsed_min.getD "?" ++ " minutes"
  else if tool_name == "spotify_search_link" then
    "Spotify link generated"
  else
    "Done"

/-- `SYSTEM_PROMPT_BASE` from `backend/brain.py`. -/
def SYSTEM_PROMPT_BASE : String :=
  "You are Vuddy, a friendly and helpful AI campus desk buddy for college students. You help with:\n- Finding campus events and activities\n- Managing study sessions (Pomodoro-style timers)\n- Calendar management and reminders\n- Personalized event recommendations based on interests\n- Playing music via Spotify links\n\nPersonality:\n- Warm, upbeat, and encouraging\n- Speak naturally like a helpful friend, not a robot\n- Keep responses concise for voice output (2-3 sentences max)\n- Use casual language appropriate for college students\n- Be proactive in suggesting relevant events or activities\n\nWhen using tools, always explain what you found in a natural, conversational way.\nNever mention internal tool names to the user."

/-- `brain._get_system_prompt`, with `school_config.get_school_prompt_context()`
abstracted to its returned string. -/
def get_system_prompt (schoolContext : String) : String :=
  SYSTEM_PROMPT_BASE ++ "\n\nSchool Context:\n" ++ schoolContext

/-- `brain._build_messages(user_text, profile_context)`: system message
(persona plus profile when non-empty), then the chat history, then the new
user message. The module-level `_chat_history` it reads is passed as
`history`. -/
def build_messages (schoolContext userText profileContext : String)
    (history : List Message) : List Message :=
  let systemContent := get_system_prompt schoolContext
  let systemContent :=
    if profileContext ≠ "" then
      systemContent ++ "\n\nUser Profile:\n" ++ profileContext
    else systemContent
  { role := "system", content := systemContent } ::
    (history ++ [{ role := "user", content := userText }])

/-- A reasoning-service reply: `response.get("content", "")` and
`response.get("tool_calls", [])`. -/
structure LLMResponse where
  content : String := ""
  tool_calls : List ToolCall := []

deriving instance DecidableEq for LLMResponse

/-- The oracle for every collaborator a turn calls, plus the cancellation
schedule. `llmChat msgs withTools` is `llm_provider.chat(messages, tools)`
(which can raise, e.g. `httpx` faults or `raise_for_status`); `toolBeh i`
is the provider behaviour of the i-th dispatched tool call of this turn;
`jsonParse` is `json.loads` on a string argument payload (`none` models
`JSONDecodeError`); `tts` is `elevenlabs_tts.synthesize`, which handles
its own failures and returns an optional file path. `cancelAt = some k`
means the task's `CancelledError` is delivered at suspension point `k`. -/
structure Env where
  schoolContext : String := ""
  profileContext : String := ""
  cancelAt : Option Nat := none
  llmChat : List Message → Bool → Except String LLMResponse
  toolBeh : Nat → Nat → ToolAttempt := fun _ _ => ToolAttempt.timeout
  jsonParse : String → Option (List (String × String)) := fun _ => none
  tts : String → Option String := fun _ => none

/-- The mutable state a turn task touches: the suspension-point counter,
the outbound WebSocket trace, the hardware LED signal log, the log of
`execute_tool` dispatches (name and parsed arguments, in order), and the
module-level `_chat_history`. -/
structure TurnState where
  tick : Nat := 0
  trace : List Event := []
  hw : List String := []
  calls : List (String × List (String × String)) := []
  history : List Message := []

deriving instance DecidableEq for TurnState

/-- Result of running a piece of the turn task: normal return, an
uncaught `Exception` with message `msg`, or `asyncio.CancelledError`
unwinding (which `except Exception` clauses do not catch). -/
inductive TRes (α : Type) where
  | ok (a : α)
  | exn (msg : String)
  | cancelled

deriving instance DecidableEq for TRes

/-- The turn-task monad: state passing plus the three-way outcome. -/
@[reducible] def TurnM (α : Type) : Type := TurnState → TRes α × TurnState

/-- Monad unit for `TurnM`. -/
def pureT {α : Type} (a : α) : TurnM α := fun s => (TRes.ok a, s)

/-- Monad bind for `TurnM`: exceptions and cancellation short-circuit, so
code after a raising or cancelled statement does not run — matching
Python unwinding. -/
def bindT {α β : Type} (m : TurnM α) (f : α → TurnM β) : TurnM β := fun s =>
  match m s with
  | (TRes.ok a, s1) => f a s1
  | (TRes.exn e, s1) => (TRes.exn e, s1)
  | (TRes.cancelled, s1) => (TRes.cancelled, s1)

instance monadTurnM : Monad TurnM where
  pure := pureT
  bind := bindT

theorem bind_def {α β : Type} (m : TurnM α) (f : α → TurnM β) :
    m >>= f = bindT m f := rfl

theorem pure_def {α : Type} (a : α) : (pure a : TurnM α) = pureT a := rfl

/-- One `await` suspension point: if the cancellation schedule fires at the
current tick, `CancelledError` is raised and the awaited action's effect is
discarded; otherwise the action runs. Either way the tick advances. -/
def await1 {α : Type} (env : Env) (act : TurnState → TRes α × TurnState) :
    TurnM α := fun s =>
  if env.cancelAt = some s.tick then (TRes.cancelled, { s with tick := s.tick + 1 })
  else act { s with tick := s.tick + 1 }

/-- `brain._send_ws`: `await ws.send_json(data)` with send faults swallowed
by its `try/except`; successful sends append the event to the outbound
trace. -/
def send_ws (env : Env) (e : Event) : TurnM Unit :=
  await1 env (fun s => (TRes.ok (), { s with trace := s.trace ++ [e] }))

/-- `await hardware.set_led_state(state)`: `SimHardware` logs the state and
never raises. -/
def hw_set (env : Env) (st : String) : TurnM Unit :=
  await1 env (fun s => (TRes.ok (), { s with hw := s.hw ++ [st] }))

/-- `await llm_provider.chat(messages, tools)`: returns the response dict
or raises. -/
def llm_chat (env : Env) (msgs : List Message) (withTools : Bool) :
    TurnM LLMResponse :=
  await1 env (fun s =>
    match env.llmChat msgs withTools with
    | Except.ok r => (TRes.ok r, s)
    | Except.error m => (TRes.exn m, s))

/-- `await tools_module.execute_tool(tool_name, tool_args)`: the dispatcher
catches every provider fault (claim C5), so apart from cancellation this
always returns a result dict; the dispatch is logged in order. -/
def tool_exec (env : Env) (name : String) (args : List (String × String)) :
    TurnM ToolResult :=
  await1 env (fun s =>
    (TRes.ok (execute_tool name (env.toolBeh s.calls.length)).1,
     { s with calls := s.calls ++ [(name, args)] }))

/-- `await elevenlabs_tts.synthesize(text)`: catches its own exceptions and
returns an optional audio file path. -/
def tts_synthesize (env : Env) (text : String) : TurnM (Option String) :=
  await1 env (fun s => (TRes.ok (env.tts text), s))

/-- Reading the module-level `_chat_history` (synchronous, no suspension). -/
def get_history : TurnM (List Message) := fun s => (TRes.ok s.history, s)

/-- Mutating the module-level `_chat_history` (synchronous: the append and
trim in `process_message` contain no `await`, so no other coroutine can
observe the intermediate list). -/
def set_history (f : List Message → List Message) : TurnM Unit :=
  fun s => (TRes.ok (), { s with history := f s.history })

/-- A `try: body except Exception as e: handler(e)` block.
`asyncio.CancelledError` derives from `BaseException`, so it is not caught
and keeps unwinding. -/
def tryExcept (body : TurnM Unit) (handler : String → TurnM Unit) :
    TurnM Unit := fun s =>
  match body s with
  | (TRes.ok a, s1) => (TRes.ok a, s1)
  | (TRes.exn e, s1) => handler e s1
  | (TRes.cancelled, s1) => (TRes.cancelled, s1)

/-- Argument handling in the tool loop of `process_message`: a string
payload goes through `json.loads`, degrading to `{}` on
`JSONDecodeError`; a mapping is used as is. -/
def parse_tool_args (env : Env) (raw : RawArgs) : List (String × String) :=
  match raw with
  | RawArgs.str s => (env.jsonParse s).getD []
  | RawArgs.obj d => d

/-- A model of `json.dumps(tool_result)` used for the `role: "tool"`
transcript message (the rendered text is never re-read by the pipeline). -/
def json_dumps_tool_result (r : ToolResult) : String :=
  "\x7b\"ok\": " ++ (if r.ok then "true" else "false") ++
    (match r.error with
     | some e => ", \"error\": \"" ++ e ++ "\""
     | none => "") ++ "\x7d"

/-- One iteration of the `for tool_call in tool_calls` loop in
`process_message` (steps 6a-6d): emit `tool_status calling`, dispatch,
emit `tool_status done|error` from the result's `ok` flag, append the call
and its result to the prompt transcript, and record the one-line summary. -/
def tool_loop_step (env : Env) (acc : List Message × List (String × String))
    (tc : ToolCall) : TurnM (List Message × List (String × String)) := do
  let tool_name := tc.name
  let tool_args := parse_tool_args env tc.arguments
  send_ws env (Event.toolStatus tool_name "calling")
  let tool_result ← tool_exec env tool_name tool_args
  let status := if tool_result.ok then "done" else "error"
  send_ws env (Event.toolStatus tool_name status)
  let messages := acc.1 ++
    [{ role := "assistant", content := "", tool_calls := [tc] },
     { role := "tool", content := json_dumps_tool_result tool_result }]
  let summaries := acc.2 ++
    [(tool_name, summarize_tool_result tool_name tool_result)]
  pure (messages, summaries)

/-- The whole tool loop, iterating `tool_loop_step` over the (already
truncated) tool-call list in order. -/
def tool_loop (env : Env) (tcs : List ToolCall)
    (acc : List Message × List (String × String)) :
    TurnM (List Message × List (String × String)) :=
  match tcs with
  | [] => pure acc
  | tc :: rest => do
      let acc1 ← tool_loop_step env acc tc
      tool_loop env rest acc1

/-- Step 6 of `process_message` ("Handle tool calls if returned"): when
the response carries tool calls, truncate them to the first
`MAX_TOOL_CALLS_PER_TURN`, run the loop, and issue the second LLM call
with tools disabled; otherwise pass the first response through. Returns
the text of the last response together with the tool summaries. -/
def tool_phase (env : Env) (messages : List Message) (response : LLMResponse) :
    TurnM (String × List (String × String)) :=
  match response.tool_calls with
  | [] => pure (response.content, [])
  | tc :: rest => do
      let tcs := (tc :: rest).take MAX_TOOL_CALLS_PER_TURN
      let acc1 ← tool_loop env tcs (messages, [])
      let response2 ← llm_chat env acc1.1 false
      pure (response2.content, acc1.2)

/-- Steps 1-6e of `process_message`: thinking state, LED, profile fetch,
prompt assembly, first LLM call with tools attached, then `tool_phase`. -/
def steps_to_response (env : Env) (text : String) :
    TurnM (String × List (String × String)) := do
  send_ws env (Event.assistantState "thinking")
  hw_set env "thinking"
  let profile_context := env.profileContext
  let h ← get_history
  let messages := build_messages env.schoolContext text profile_context h
  let response ← llm_chat env messages true
  tool_phase env messages response

/-- Python `audio_path.split("/")[-1]`. -/
def last_slash_component (s : String) : String :=
  (s.splitOn "/").getLastD s

/-- Steps 8-11 of `process_message`: best-effort TTS with
`assistant_audio_ready` on success (silently skipped when `synthesize`
returned `None`), then the `speaking` state event and LED. -/
def tts_and_speak (env : Env) (response_text : String) : TurnM Unit := do
  let audio_path ← tts_synthesize env response_text
  match audio_path with
  | some path =>
      send_ws env (Event.assistantAudioReady
        ("/api/audio/tts/" ++ last_slash_component path) "mp3")
  | none => pure ()
  send_ws env (Event.assistantState "speaking")
  hw_set env "speaking"

/-- Steps 7-11 of `process_message`, after the response text has been
shaped: emit `assistant_text`, append the exchange to `_chat_history` and
trim it (no `await` between those two assignments), then `tts_and_speak`. -/
def finish_turn (env : Env) (text response_text : String)
    (summaries : List (String × String)) : TurnM Unit := do
  send_ws env (Event.assistantText response_text summaries)
  set_history (fun h => update_history h text response_text)
  tts_and_speak env response_text

/-- The `try` body of `brain.process_message`. -/
def process_body (env : Env) (text : String) : TurnM Unit := do
  let pr ← steps_to_response env text
  let response_text := shape_response pr.1
  finish_turn env text response_text pr.2

/-- The `except Exception` handler of `brain.process_message`: one
`error{message, recoverable: True}` event, the `idle` state event, and the
idle LED. -/
def error_handler (env : Env) (m : String) : TurnM Unit := do
  send_ws env (Event.error m true)
  send_ws env (Event.assistantState "idle")
  hw_set env "idle"

/-- `brain.process_message(text, ws, llm_provider, hardware)`. -/
def process_message (env : Env) (text : String) : TurnM Unit :=
  tryExcept (process_body env text) (error_handler env)

/-- `set_idle_state` in `main.websocket_endpoint`: send the idle state
event (send faults swallowed) and set the idle LED. -/
def set_idle_state (s : TurnState) : TurnState :=
  { s with trace := s.trace ++ [Event.assistantState "idle"],
           hw := s.hw ++ ["idle"] }

/-- `run_turn` in `main.websocket_endpoint`: run `process_message`;
re-raise `CancelledError`, swallow any other exception, and in all cases
run the `finally: await set_idle_state()` cleanup. -/
def run_turn (env : Env) (text : String) : TurnM Unit := fun s =>
  match process_message env text s with
  | (TRes.cancelled, s1) => (TRes.cancelled, set_idle_state s1)
  | (_, s1) => (TRes.ok (), set_idle_state s1)

/-- An inbound action of one WebSocket session, for the cross-session
model: `connect` is the `websocket_endpoint` prologue (initial idle state
event, then `brain.clear_history()`), and `chatMsg` is a
`transcript_final`/`chat` event with non-empty text, whose turn runs under
`env` (a cancellation of this turn by a later inbound event is encoded in
`env.cancelAt`; `cancel_current_turn` awaits the cancelled task before the
next action proceeds, so actions are serialized in arrival order). -/
inductive SessAction where
  | connect
  | chatMsg (text : String) (env : Env)

/-- Fresh per-turn task state over the given shared `_chat_history`. -/
def init_turn_state (h : List Message) : TurnState := { history := h }

/-- Apply one session's action to the shared module state. The first
component is the module-level `_chat_history` (shared by every session);
the log records each outbound event tagged with the session that sent it. -/
def apply_action (shared : List Message) (log : List (Nat × Event)) :
    Nat × SessAction → List Message × List (Nat × Event)
  | (sid, SessAction.connect) =>
      ([], log ++ [(sid, Event.assistantState "idle")])
  | (sid, SessAction.chatMsg text env) =>
      let s1 := (run_turn env text (init_turn_state shared)).2
      (s1.history, log ++ s1.trace.map (fun e => (sid, e)))

/-- Run a whole interleaving of session actions against the shared module
state, starting from history `shared` and log `log`. -/
def run_schedule : List (Nat × SessAction) → List Message →
    List (Nat × Event) → List Message × List (Nat × Event)
  | [], shared, log => (shared, log)
  | a :: rest, shared, log =>
      let p := apply_action shared log a
      run_schedule rest p.1 p.2

/-- The outbound events one session's WebSocket actually carried. -/
def session_events (sid : Nat) (log : List (Nat × Event)) : List Event :=
  (log.filter (fun p => p.1 == sid)).map Prod.snd

/-! ### Generic framing lemmas about the turn monad -/

/-- Whether an outbound event is an `error` event. -/
def is_error_event : Event → Bool
  | Event.error _ _ => true
  | _ => false

/-- Number of `error` events in a trace. -/
def count_errors (tr : List Event) : Nat :=
  (tr.filter is_error_event).length

theorem count_errors_append (a b : List Event) :
    count_errors (a ++ b) = count_errors a + count_errors b := by
  simp [count_errors, List.filter_append]

/-- `m` never touches the module-level `_chat_history`. -/
def keeps_history {α : Type} (m : TurnM α) : Prop :=
  ∀ s, ((m s).2).history = s.history

/-- `m` only appends to the outbound trace. -/
def trace_extends {α : Type} (m : TurnM α) : Prop :=
  ∀ s, ∃ t, ((m s).2).trace = s.trace ++ t

/-- `m` emits no `error` event. -/
def adds_no_error {α : Type} (m : TurnM α) : Prop :=
  ∀ s, count_errors ((m s).2).trace = count_errors s.trace

/-- `m` dispatches at most `k` tool calls. -/
def calls_bounded {α : Type} (m : TurnM α) (k : Nat) : Prop :=
  ∀ s, ((m s).2).calls.length ≤ s.calls.length + k

theorem keeps_history_bindT {α β : Type} {m : TurnM α} {f : α → TurnM β}
    (hm : keeps_history m) (hf : ∀ a, keeps_history (f a)) :
    keeps_history (bindT m f) := by
  intro s
  unfold bindT
  rcases hres : m s with ⟨r, s1⟩
  have hs1 : s1.history = s.history := by
    have := hm s; rwa [hres] at this
  cases r with
  | ok a => simpa [hs1] using hf a s1
  | exn e => simpa using hs1
  | cancelled => simpa using hs1

theorem keeps_history_pureT {α : Type} (a : α) : keeps_history (pureT a) := by
  intro s; rfl

theorem keeps_history_await1 {α : Type} (env : Env)
    (act : TurnState → TRes α × TurnState)
    (hact : ∀ s, ((act s).2).history = s.history) :
    keeps_history (await1 env act) := by
  intro s
  unfold await1
  split
  · rfl
  · exact hact _

theorem keeps_history_send_ws (env : Env) (e : Event) :
    keeps_history (send_ws env e) :=
  keeps_history_await1 env _ (fun _ => rfl)

theorem keeps_history_hw_set (env : Env) (st : String) :
    keeps_history (hw_set env st) :=
  keeps_history_await1 env _ (fun _ => rfl)

theorem keeps_history_llm_chat (env : Env) (msgs : List Message) (b : Bool) :
    keeps_history (llm_chat env msgs b) := by
  apply keeps_history_await1
  intro s
  cases env.llmChat msgs b <;> rfl

theorem keeps_history_tool_exec (env : Env) (name : String)
    (args : List (String × String)) : keeps_history (tool_exec env name args) :=
  keeps_history_await1 env _ (fun _ => rfl)

theorem keeps_history_tts (env : Env) (text : String) :
    keeps_history (tts_synthesize env text) :=
  keeps_history_await1 env _ (fun _ => rfl)

theorem keeps_history_get_history : keeps_history get_history := by
  intro s; rfl

theorem keeps_history_tool_loop_step (env : Env)
    (acc : List Message × List (String × String)) (tc : ToolCall) :
    keeps_history (tool_loop_step env acc tc) := by
  unfold tool_loop_step
  simp only [bind_def, pure_def]
  apply keeps_history_bindT (keeps_history_send_ws env _)
  intro _
  apply keeps_history_bindT (keeps_history_tool_exec env _ _)
  intro r
  apply keeps_history_bindT (keeps_history_send_ws env _)
  intro _
  exact keeps_history_pureT _

theorem keeps_history_tool_loop (env : Env) (tcs : List ToolCall) :
    ∀ acc, keeps_history (tool_loop env tcs acc) := by
  induction tcs with
  | nil => intro acc; exact keeps_history_pureT acc
  | cons tc rest ih =>
      intro acc
      unfold tool_loop
      simp only [bind_def]
      exact keeps_history_bindT (keeps_history_tool_loop_step env acc tc)
        (fun acc1 => ih acc1)

theorem keeps_history_tool_phase (env : Env) (messages : List Message)
    (resp : LLMResponse) : keeps_history (tool_phase env messages resp) := by
  unfold tool_phase
  cases htc : resp.tool_calls with
  | nil => exact keeps_history_pureT _
  | cons tc rest =>
      simp only [bind_def, pure_def]
      apply keeps_history_bindT (keeps_history_tool_loop env _ _)
      intro acc1
      apply keeps_history_bindT (keeps_history_llm_chat env _ _)
      intro resp2
      exact keeps_history_pureT _

theorem keeps_history_steps_to_response (env : Env) (text : String) :
    keeps_history (steps_to_response env text) := by
  unfold steps_to_response
  simp only [bind_def, pure_def]
  apply keeps_history_bindT (keeps_history_send_ws env _)
  intro _
  apply keeps_history_bindT (keeps_history_hw_set env _)
  intro _
  apply keeps_history_bindT keeps_history_get_history
  intro h
  apply keeps_history_bindT (keeps_history_llm_chat env _ _)
  intro resp
  exact keeps_history_tool_phase env _ resp

theorem keeps_history_error_handler (env : Env) (m : String) :
    keeps_history (error_handler env m) := by
  unfold error_handler
  simp only [bind_def]
  apply keeps_history_bindT (keeps_history_send_ws env _)
  intro _
  apply keeps_history_bindT (keeps_history_send_ws env _)
  intro _
  exact keeps_history_hw_set env _

theorem trace_extends_bindT {α β : Type} {m : TurnM α} {f : α → TurnM β}
    (hm : trace_extends m) (hf : ∀ a, trace_extends (f a)) :
    trace_extends (bindT m f) := by
  intro s
  unfold bindT
  rcases hres : m s with ⟨r, s1⟩
  have hs1 : ∃ t, s1.trace = s.trace ++ t := by
    have := hm s; rwa [hres] at this
  obtain ⟨t1, ht1⟩ := hs1
  cases r with
  | ok a =>
      obtain ⟨t2, ht2⟩ := hf a s1
      exact ⟨t1 ++ t2, by simp [ht2, ht1]⟩
  | exn e => exact ⟨t1, ht1⟩
  | cancelled => exact ⟨t1, ht1⟩

theorem trace_extends_pureT {α : Type} (a : α) : trace_extends (pureT a) :=
  fun s => ⟨[], by simp [pureT]⟩

theorem trace_extends_await1 {α : Type} (env : Env)
    (act : TurnState → TRes α × TurnState)
    (hact : ∀ s, ∃ t, ((act s).2).trace = s.trace ++ t) :
    trace_extends (await1 env act) := by
  intro s
  unfold await1
  split
  · exact ⟨[], by simp⟩
  · exact hact _

theorem trace_extends_send_ws (env : Env) (e : Event) :
    trace_extends (send_ws env e) :=
  trace_extends_await1 env _ (fun _ => ⟨[e], rfl⟩)

theorem trace_extends_hw_set (env : Env) (st : String) :
    trace_extends (hw_set env st) :=
  trace_extends_await1 env _ (fun _ => ⟨[], by simp⟩)

theorem trace_extends_llm_chat (env : Env) (msgs : List Message) (b : Bool) :
    trace_extends (llm_chat env msgs b) := by
  apply trace_extends_await1
  intro s
  cases env.llmChat msgs b <;> exact ⟨[], by simp⟩

theorem trace_extends_tool_exec (env : Env) (name : String)
    (args : List (String × String)) : trace_extends (tool_exec env name args) :=
  trace_extends_await1 env _ (fun _ => ⟨[], by simp⟩)

theorem trace_extends_tts (env : Env) (text : String) :
    trace_extends (tts_synthesize env text) :=
  trace_extends_await1 env _ (fun _ => ⟨[], by simp⟩)

theorem trace_extends_set_history (f : List Message → List Message) :
    trace_extends (set_history f) :=
  fun s => ⟨[], by simp [set_history]⟩

theorem trace_extends_tool_loop_step (env : Env)
    (acc : List Message × List (String × String)) (tc : ToolCall) :
    trace_extends (tool_loop_step env acc tc) := by
  unfold tool_loop_step
  simp only [bind_def, pure_def]
  apply trace_extends_bindT (trace_extends_send_ws env _)
  intro _
  apply trace_extends_bindT (trace_extends_tool_exec env _ _)
  intro r
  apply trace_extends_bindT (trace_extends_send_ws env _)
  intro _
  exact trace_extends_pureT _

theorem trace_extends_tool_loop (env : Env) (tcs : List ToolCall) :
    ∀ acc, trace_extends (tool_loop env tcs acc) := by
  induction tcs with
  | nil => intro acc; exact trace_extends_pureT acc
  | cons tc rest ih =>
      intro acc
      unfold tool_loop
      simp only [bind_def]
      exact trace_extends_bindT (trace_extends_tool_loop_step env acc tc)
        (fun acc1 => ih acc1)

theorem trace_extends_tts_and_speak (env : Env) (rt : String) :
    trace_extends (tts_and_speak env rt) := by
  unfold tts_and_speak
  simp only [bind_def, pure_def]
  apply trace_extends_bindT (trace_extends_tts env _)
  intro audio
  cases audio with
  | some path =>
      apply trace_extends_bindT (trace_extends_send_ws env _)
      intro _
      apply trace_extends_bindT (trace_extends_send_ws env _)
      intro _
      exact trace_extends_hw_set env _
  | none =>
      apply trace_extends_bindT (trace_extends_pureT _)
      intro _
      apply trace_extends_bindT (trace_extends_send_ws env _)
      intro _
      exact trace_extends_hw_set env _

theorem keeps_history_tts_and_speak (env : Env) (rt : String) :
    keeps_history (tts_and_speak env rt) := by
  unfold tts_and_speak
  simp only [bind_def, pure_def]
  apply keeps_history_bindT (keeps_history_tts env _)
  intro audio
  cases audio with
  | some path =>
      apply keeps_history_bindT (keeps_history_send_ws env _)
      intro _
      apply keeps_history_bindT (keeps_history_send_ws env _)
      intro _
      exact keeps_history_hw_set env _
  | none =>
      apply keeps_history_bindT (keeps_history_pureT _)
      intro _
      apply keeps_history_bindT (keeps_history_send_ws env _)
      intro _
      exact keeps_history_hw_set env _

theorem trace_extends_finish_turn (env : Env) (text rt : String)
    (sm : List (String × String)) : trace_extends (finish_turn env text rt sm) := by
  unfold finish_turn
  simp only [bind_def, pure_def]
  apply trace_extends_bindT (trace_extends_send_ws env _)
  intro _
  apply trace_extends_bindT (trace_extends_set_history _)
  intro _
  exact trace_extends_tts_and_speak env _

theorem adds_no_error_bindT {α β : Type} {m : TurnM α} {f : α → TurnM β}
    (hm : adds_no_error m) (hf : ∀ a, adds_no_error (f a)) :
    adds_no_error (bindT m f) := by
  intro s
  unfold bindT
  rcases hres : m s with ⟨r, s1⟩
  have hs1 : count_errors s1.trace = count_errors s.trace := by
    have := hm s; rwa [hres] at this
  cases r with
  | ok a => rw [hf a s1, hs1]
  | exn e => exact hs1
  | cancelled => exact hs1

theorem adds_no_error_pureT {α : Type} (a : α) : adds_no_error (pureT a) :=
  fun _ => rfl

theorem adds_no_error_await1 {α : Type} (env : Env)
    (act : TurnState → TRes α × TurnState)
    (hact : ∀ s, count_errors ((act s).2).trace = count_errors s.trace) :
    adds_no_error (await1 env act) := by
  intro s
  unfold await1
  split
  · rfl
  · exact hact _

theorem adds_no_error_send_ws (env : Env) (e : Event)
    (he : is_error_event e = false) : adds_no_error (send_ws env e) := by
  apply adds_no_error_await1
  intro s
  simp [count_errors, List.filter_append, he]

theorem adds_no_error_hw_set (env : Env) (st : String) :
    adds_no_error (hw_set env st) :=
  adds_no_error_await1 env _ (fun _ => rfl)

theorem adds_no_error_llm_chat (env : Env) (msgs : List Message) (b : Bool) :
    adds_no_error (llm_chat env msgs b) := by
  apply adds_no_error_await1
  intro s
  cases env.llmChat msgs b <;> rfl

theorem adds_no_error_tool_exec (env : Env) (name : String)
    (args : List (String × String)) : adds_no_error (tool_exec env name args) :=
  adds_no_error_await1 env _ (fun _ => rfl)

theorem adds_no_error_tts (env : Env) (text : String) :
    adds_no_error (tts_synthesize env text) :=
  adds_no_error_await1 env _ (fun _ => rfl)

theorem adds_no_error_set_history (f : List Message → List Message) :
    adds_no_error (set_history f) :=
  fun _ => rfl

theorem adds_no_error_get_history : adds_no_error get_history :=
  fun _ => rfl

theorem adds_no_error_tool_loop_step (env : Env)
    (acc : List Message × List (String × String)) (tc : ToolCall) :
    adds_no_error (tool_loop_step env acc tc) := by
  unfold tool_loop_step
  simp only [bind_def, pure_def]
  refine adds_no_error_bindT (adds_no_error_send_ws env _ rfl) ?_
  intro _
  apply adds_no_error_bindT (adds_no_error_tool_exec env _ _)
  intro r
  refine adds_no_error_bindT (adds_no_error_send_ws env _ rfl) ?_
  intro _
  exact adds_no_error_pureT _

theorem adds_no_error_tool_loop (env : Env) (tcs : List ToolCall) :
    ∀ acc, adds_no_error (tool_loop env tcs acc) := by
  induction tcs with
  | nil => intro acc; exact adds_no_error_pureT acc
  | cons tc rest ih =>
      intro acc
      unfold tool_loop
      simp only [bind_def]
      exact adds_no_error_bindT (adds_no_error_tool_loop_step env acc tc)
        (fun acc1 => ih acc1)

theorem adds_no_error_tool_phase (env : Env) (messages : List Message)
    (resp : LLMResponse) : adds_no_error (tool_phase env messages resp) := by
  unfold tool_phase
  cases htc : resp.tool_calls with
  | nil => exact adds_no_error_pureT _
  | cons tc rest =>
      simp only [bind_def, pure_def]
      apply adds_no_error_bindT (adds_no_error_tool_loop env _ _)
      intro acc1
      apply adds_no_error_bindT (adds_no_error_llm_chat env _ _)
      intro resp2
      exact adds_no_error_pureT _

theorem adds_no_error_steps_to_response (env : Env) (text : String) :
    adds_no_error (steps_to_response env text) := by
  unfold steps_to_response
  simp only [bind_def, pure_def]
  refine adds_no_error_bindT (adds_no_error_send_ws env _ rfl) ?_
  intro _
  apply adds_no_error_bindT (adds_no_error_hw_set env _)
  intro _
  apply adds_no_error_bindT adds_no_error_get_history
  intro h
  apply adds_no_error_bindT (adds_no_error_llm_chat env _ _)
  intro resp
  exact adds_no_error_tool_phase env _ resp

theorem adds_no_error_tts_and_speak (env : Env) (rt : String) :
    adds_no_error (tts_and_speak env rt) := by
  unfold tts_and_speak
  simp only [bind_def, pure_def]
  apply adds_no_error_bindT (adds_no_error_tts env _)
  intro audio
  cases audio with
  | some path =>
      refine adds_no_error_bindT (adds_no_error_send_ws env _ rfl) ?_
      intro _
      refine adds_no_error_bindT (adds_no_error_send_ws env _ rfl) ?_
      intro _
      exact adds_no_error_hw_set env _
  | none =>
      apply adds_no_error_bindT (adds_no_error_pureT _)
      intro _
      refine adds_no_error_bindT (adds_no_error_send_ws env _ rfl) ?_
      intro _
      exact adds_no_error_hw_set env _

theorem adds_no_error_finish_turn (env : Env) (text rt : String)
    (sm : List (String × String)) : adds_no_error (finish_turn env text rt sm) := by
  unfold finish_turn
  simp only [bind_def, pure_def]
  refine adds_no_error_bindT (adds_no_error_send_ws env _ rfl) ?_
  intro _
  apply adds_no_error_bindT (adds_no_error_set_history _)
  intro _
  exact adds_no_error_tts_and_speak env _

theorem calls_bounded_mono {α : Type} {m : TurnM α} {k k' : Nat}
    (h : calls_bounded m k) (hk : k ≤ k') : calls_bounded m k' := by
  intro s
  have := h s
  omega

theorem calls_bounded_bindT {α β : Type} {m : TurnM α} {f : α → TurnM β}
    {k1 k2 : Nat} (hm : calls_bounded m k1) (hf : ∀ a, calls_bounded (f a) k2) :
    calls_bounded (bindT m f) (k1 + k2) := by
  intro s
  unfold bindT
  rcases hres : m s with ⟨r, s1⟩
  have hs1 : s1.calls.length ≤ s.calls.length + k1 := by
    have := hm s; rwa [hres] at this
  cases r with
  | ok a =>
      have h2 := hf a s1
      change ((f a s1).2).calls.length ≤ s.calls.length + (k1 + k2)
      omega
  | exn e =>
      change s1.calls.length ≤ s.calls.length + (k1 + k2)
      omega
  | cancelled =>
      change s1.calls.length ≤ s.calls.length + (k1 + k2)
      omega

theorem calls_bounded_pureT {α : Type} (a : α) : calls_bounded (pureT a) 0 := by
  intro s; simp [pureT]

theorem calls_bounded_await1 {α : Type} (env : Env)
    (act : TurnState → TRes α × TurnState) (k : Nat)
    (hact : ∀ s, ((act s).2).calls.length ≤ s.calls.length + k) :
    calls_bounded (await1 env act) k := by
  intro s
  unfold await1
  split
  · simp
  · exact hact _

theorem calls_bounded_send_ws (env : Env) (e : Event) :
    calls_bounded (send_ws env e) 0 :=
  calls_bounded_await1 env _ 0 (fun _ => by simp)

theorem calls_bounded_hw_set (env : Env) (st : String) :
    calls_bounded (hw_set env st) 0 :=
  calls_bounded_await1 env _ 0 (fun _ => by simp)

theorem calls_bounded_llm_chat (env : Env) (msgs : List Message) (b : Bool) :
    calls_bounded (llm_chat env msgs b) 0 := by
  apply calls_bounded_await1
  intro s
  cases env.llmChat msgs b <;> simp

theorem calls_bounded_tool_exec (env : Env) (name : String)
    (args : List (String × String)) : calls_bounded (tool_exec env name args) 1 :=
  calls_bounded_await1 env _ 1 (fun s => by simp)

theorem calls_bounded_tts (env : Env) (text : String) :
    calls_bounded (tts_synthesize env text) 0 :=
  calls_bounded_await1 env _ 0 (fun _ => by simp)

theorem calls_bounded_set_history (f : List Message → List Message) :
    calls_bounded (set_history f) 0 := by
  intro s; simp [set_history]

theorem calls_bounded_get_history : calls_bounded get_history 0 := by
  intro s; simp [get_history]

theorem calls_bounded_tool_loop_step (env : Env)
    (acc : List Message × List (String × String)) (tc : ToolCall) :
    calls_bounded (tool_loop_step env acc tc) 1 := by
  unfold tool_loop_step
  simp only [bind_def, pure_def]
  refine calls_bounded_mono ?_ (le_refl 1)
  refine calls_bounded_mono
    (calls_bounded_bindT (calls_bounded_send_ws env _) (fun _ =>
      calls_bounded_bindT (calls_bounded_tool_exec env _ _) (fun r =>
        calls_bounded_bindT (calls_bounded_send_ws env _) (fun _ =>
          calls_bounded_pureT _)))) (by omega)

theorem calls_bounded_tool_loop (env : Env) (tcs : List ToolCall) :
    ∀ acc, calls_bounded (tool_loop env tcs acc) tcs.length := by
  induction tcs with
  | nil => intro acc; exact calls_bounded_pureT acc
  | cons tc rest ih =>
      intro acc
      unfold tool_loop
      simp only [bind_def]
      refine calls_bounded_mono
        (calls_bounded_bindT (calls_bounded_tool_loop_step env acc tc)
          (fun acc1 => ih acc1)) (by simp; omega)

theorem calls_bounded_tool_phase (env : Env) (messages : List Message)
    (resp : LLMResponse) :
    calls_bounded (tool_phase env messages resp) MAX_TOOL_CALLS_PER_TURN := by
  unfold tool_phase
  cases htc : resp.tool_calls with
  | nil => exact calls_bounded_mono (calls_bounded_pureT _) (by omega)
  | cons tc rest =>
      simp only [bind_def, pure_def]
      refine calls_bounded_mono
        (@calls_bounded_bindT _ _ _ _ _ 0 (calls_bounded_tool_loop env _ _) (fun acc1 =>
          calls_bounded_bindT (calls_bounded_llm_chat env _ _) (fun resp2 =>
            calls_bounded_pureT _))) ?_
      have : ((tc :: rest).take MAX_TOOL_CALLS_PER_TURN).length ≤ MAX_TOOL_CALLS_PER_TURN := by
        simp [List.length_take]
      omega

theorem calls_bounded_steps_to_response (env : Env) (text : String) :
    calls_bounded (steps_to_response env text) MAX_TOOL_CALLS_PER_TURN := by
  unfold steps_to_response
  simp only [bind_def, pure_def]
  refine calls_bounded_mono
    (calls_bounded_bindT (calls_bounded_send_ws env _) (fun _ =>
      @calls_bounded_bindT _ _ _ _ 0 MAX_TOOL_CALLS_PER_TURN (calls_bounded_hw_set env _) (fun _ =>
        ?_))) (by omega)
  refine @calls_bounded_bindT _ _ _ _ 0 MAX_TOOL_CALLS_PER_TURN calls_bounded_get_history (fun h => ?_)
  refine calls_bounded_mono
    (@calls_bounded_bindT _ _ _ _ 0 MAX_TOOL_CALLS_PER_TURN (calls_bounded_llm_chat env _ _)
      (fun resp => calls_bounded_tool_phase env _ resp)) (by omega)

theorem calls_bounded_tts_and_speak (env : Env) (rt : String) :
    calls_bounded (tts_and_speak env rt) 0 := by
  unfold tts_and_speak
  simp only [bind_def, pure_def]
  refine calls_bounded_mono
    (@calls_bounded_bindT _ _ _ _ 0 0 (calls_bounded_tts env _) (fun audio => ?_)) (by omega)
  cases audio with
  | some path =>
      refine calls_bounded_mono
        (calls_bounded_bindT (calls_bounded_send_ws env _) (fun _ =>
          calls_bounded_bindT (calls_bounded_send_ws env _) (fun _ =>
            calls_bounded_hw_set env _))) (by omega)
  | none =>
      refine calls_bounded_mono
        (calls_bounded_bindT (calls_bounded_pureT _) (fun _ =>
          calls_bounded_bindT (calls_bounded_send_ws env _) (fun _ =>
            calls_bounded_hw_set env _))) (by omega)

theorem calls_bounded_finish_turn (env : Env) (text rt : String)
    (sm : List (String × String)) : calls_bounded (finish_turn env text rt sm) 0 := by
  unfold finish_turn
  simp only [bind_def, pure_def]
  refine calls_bounded_mono
    (calls_bounded_bindT (calls_bounded_send_ws env _) (fun _ =>
      calls_bounded_bindT (calls_bounded_set_history _) (fun _ =>
        calls_bounded_tts_and_speak env _))) (by omega)

theorem calls_bounded_process_body (env : Env) (text : String) :
    calls_bounded (process_body env text) MAX_TOOL_CALLS_PER_TURN := by
  unfold process_body
  simp only [bind_def]
  refine calls_bounded_mono
    (calls_bounded_bindT (calls_bounded_steps_to_response env text)
      (fun pr => calls_bounded_finish_turn env _ _ _)) (by omega)

theorem calls_bounded_error_handler (env : Env) (m : String) :
    calls_bounded (error_handler env m) 0 := by
  unfold error_handler
  simp only [bind_def]
  refine calls_bounded_mono
    (calls_bounded_bindT (calls_bounded_send_ws env _) (fun _ =>
      calls_bounded_bindT (calls_bounded_send_ws env _) (fun _ =>
        calls_bounded_hw_set env _))) (by omega)

theorem calls_bounded_tryExcept {body : TurnM Unit} {handler : String → TurnM Unit}
    {k1 k2 : Nat} (hb : calls_bounded body k1)
    (hh : ∀ m, calls_bounded (handler m) k2) :
    calls_bounded (tryExcept body handler) (k1 + k2) := by
  intro s
  unfold tryExcept
  rcases hres : body s with ⟨r, s1⟩
  have hs1 : s1.calls.length ≤ s.calls.length + k1 := by
    have := hb s; rwa [hres] at this
  cases r with
  | ok a =>
      change s1.calls.length ≤ s.calls.length + (k1 + k2)
      omega
  | exn e =>
      have h2 := hh e s1
      change ((handler e s1).2).calls.length ≤ s.calls.length + (k1 + k2)
      omega
  | cancelled =>
      change s1.calls.length ≤ s.calls.length + (k1 + k2)
      omega

theorem calls_bounded_process_message (env : Env) (text : String) :
    calls_bounded (process_message env text) MAX_TOOL_CALLS_PER_TURN := by
  unfold process_message
  refine calls_bounded_mono
    (calls_bounded_tryExcept (calls_bounded_process_body env text)
      (fun m => calls_bounded_error_handler env m)) (by omega)

/-! ### Small-step semantics lemmas for the primitives and the wrappers -/

theorem send_ws_cases (env : Env) (e : Event) (s : TurnState) :
    send_ws env e s = (TRes.cancelled, { s with tick := s.tick + 1 })
    ∨ send_ws env e s
        = (TRes.ok (), { s with tick := s.tick + 1, trace := s.trace ++ [e] }) := by
  unfold send_ws await1
  split
  · exact Or.inl rfl
  · exact Or.inr rfl

theorem tryExcept_ok {body : TurnM Unit} {handler : String → TurnM Unit}
    {s s1 : TurnState} {a : Unit} (h : body s = (TRes.ok a, s1)) :
    tryExcept body handler s = (TRes.ok a, s1) := by
  unfold tryExcept
  rw [h]

theorem tryExcept_exn {body : TurnM Unit} {handler : String → TurnM Unit}
    {s s1 : TurnState} {m : String} (h : body s = (TRes.exn m, s1)) :
    tryExcept body handler s = handler m s1 := by
  unfold tryExcept
  rw [h]

theorem tryExcept_cancelled {body : TurnM Unit} {handler : String → TurnM Unit}
    {s s1 : TurnState} (h : body s = (TRes.cancelled, s1)) :
    tryExcept body handler s = (TRes.cancelled, s1) := by
  unfold tryExcept
  rw [h]

theorem run_turn_state (env : Env) (text : String) (s : TurnState) :
    (run_turn env text s).2 = set_idle_state (process_message env text s).2 := by
  unfold run_turn
  rcases h : process_message env text s with ⟨r, s1⟩
  cases r <;> simp

theorem run_turn_cancelled_iff (env : Env) (text : String) (s : TurnState) :
    (run_turn env text s).1 = TRes.cancelled
      ↔ (process_message env text s).1 = TRes.cancelled := by
  unfold run_turn
  rcases h : process_message env text s with ⟨r, s1⟩
  cases r <;> simp

theorem adds_no_error_process_body (env : Env) (text : String) :
    adds_no_error (process_body env text) := by
  unfold process_body
  simp only [bind_def]
  apply adds_no_error_bindT (adds_no_error_steps_to_response env text)
  intro pr
  exact adds_no_error_finish_turn env _ _ _

theorem trace_extends_error_handler (env : Env) (m : String) :
    trace_extends (error_handler env m) := by
  unfold error_handler
  simp only [bind_def]
  apply trace_extends_bindT (trace_extends_send_ws env _)
  intro _
  apply trace_extends_bindT (trace_extends_send_ws env _)
  intro _
  exact trace_extends_hw_set env _

/-- Case analysis of steps 7-11: either the `assistant_text` send was
cancelled before the event went out (history untouched), or the event was
emitted and the history was updated right after it. -/
theorem finish_turn_history_cases (env : Env) (text rt : String)
    (sm : List (String × String)) (s : TurnState) :
    (((finish_turn env text rt sm s).2).history = s.history
        ∧ (finish_turn env text rt sm s).1 = TRes.cancelled)
    ∨ (Event.assistantText rt sm ∈ ((finish_turn env text rt sm s).2).trace
        ∧ ((finish_turn env text rt sm s).2).history
            = update_history s.history text rt) := by
  unfold finish_turn
  simp only [bind_def, pure_def]
  rcases send_ws_cases env (Event.assistantText rt sm) s with hsw | hsw
  · left
    simp [bindT, hsw]
  · right
    simp only [bindT, hsw, set_history]
    obtain ⟨t, ht⟩ := trace_extends_tts_and_speak env rt
      { s with tick := s.tick + 1, trace := s.trace ++ [Event.assistantText rt sm],
               history := update_history s.history text rt }
    have hh := keeps_history_tts_and_speak env rt
      { s with tick := s.tick + 1, trace := s.trace ++ [Event.assistantText rt sm],
               history := update_history s.history text rt }
    rcases hres : tts_and_speak env rt
        { s with tick := s.tick + 1, trace := s.trace ++ [Event.assistantText rt sm],
                 history := update_history s.history text rt } with ⟨r2, s2⟩
    rw [hres] at ht hh
    constructor
    · rw [ht]
      simp
    · exact hh

/-- Case analysis of the whole `try` body: the history is unchanged unless
the `assistant_text` event of this turn went out, in which case the
history is exactly the capped append of the (user, shaped assistant)
exchange. -/
theorem process_body_history_cases (env : Env) (text : String) (s : TurnState) :
    ((process_body env text s).2).history = s.history
    ∨ ∃ rt sm, Event.assistantText rt sm ∈ ((process_body env text s).2).trace
        ∧ ((process_body env text s).2).history = update_history s.history text rt := by
  unfold process_body
  simp only [bind_def]
  rcases hsr : steps_to_response env text s with ⟨r, s1⟩
  have hh1 : s1.history = s.history := by
    have := keeps_history_steps_to_response env text s
    rwa [hsr] at this
  cases r with
  | exn e => left; simp [bindT, hsr, hh1]
  | cancelled => left; simp [bindT, hsr, hh1]
  | ok pr =>
      have hf := finish_turn_history_cases env text (shape_response pr.1) pr.2 s1
      rcases hf with ⟨hh, _⟩ | ⟨hmem, hh⟩
      · left
        simp only [bindT, hsr]
        rw [hh, hh1]
      · right
        refine ⟨shape_response pr.1, pr.2, ?_, ?_⟩
        · simp only [bindT, hsr]
          exact hmem
        · simp only [bindT, hsr]
          rw [hh, hh1]

/-- The same case analysis for `process_message`: the `except Exception`
handler neither touches the history nor removes emitted events. -/
theorem process_message_history_cases (env : Env) (text : String) (s : TurnState) :
    ((process_message env text s).2).history = s.history
    ∨ ∃ rt sm, Event.assistantText rt sm ∈ ((process_message env text s).2).trace
        ∧ ((process_message env text s).2).history
            = update_history s.history text rt := by
  unfold process_message
  have hbody := process_body_history_cases env text s
  rcases hb : process_body env text s with ⟨r, s1⟩
  rw [hb] at hbody
  cases r with
  | ok a => rw [tryExcept_ok hb]; exact hbody
  | cancelled => rw [tryExcept_cancelled hb]; exact hbody
  | exn m =>
      rw [tryExcept_exn hb]
      have hh := keeps_history_error_handler env m s1
      obtain ⟨t, ht⟩ := trace_extends_error_handler env m s1
      rcases hbody with hunch | ⟨rt, sm, hmem, hupd⟩
      · left; rw [hh, hunch]
      · right
        exact ⟨rt, sm, by rw [ht]; exact List.mem_append_left t hmem,
               by rw [hh]; exact hupd⟩

/-- The same case analysis through `run_turn`: the `finally` cleanup only
appends the idle state event. -/
theorem run_turn_history_cases (env : Env) (text : String) (s : TurnState) :
    ((run_turn env text s).2).history = s.history
    ∨ ∃ rt sm, Event.assistantText rt sm ∈ ((run_turn env text s).2).trace
        ∧ ((run_turn env text s).2).history = update_history s.history text rt := by
  have hmsg := process_message_history_cases env text s
  rw [run_turn_state env text s]
  rcases hmsg with hunch | ⟨rt, sm, hmem, hupd⟩
  · left; simpa [set_idle_state] using hunch
  · right
    refine ⟨rt, sm, ?_, by simpa [set_idle_state] using hupd⟩
    simp only [set_idle_state]
    exact List.mem_append_left _ hmem

/-- `m` leaves the dispatch log untouched. -/
def keeps_calls {α : Type} (m : TurnM α) : Prop :=
  ∀ s, ((m s).2).calls = s.calls

theorem keeps_calls_bindT {α β : Type} {m : TurnM α} {f : α → TurnM β}
    (hm : keeps_calls m) (hf : ∀ a, keeps_calls (f a)) :
    keeps_calls (bindT m f) := by
  intro s
  unfold bindT
  rcases hres : m s with ⟨r, s1⟩
  have hs1 : s1.calls = s.calls := by
    have := hm s; rwa [hres] at this
  cases r with
  | ok a => rw [hf a s1, hs1]
  | exn e => exact hs1
  | cancelled => exact hs1

theorem keeps_calls_pureT {α : Type} (a : α) : keeps_calls (pureT a) :=
  fun _ => rfl

theorem keeps_calls_await1 {α : Type} (env : Env)
    (act : TurnState → TRes α × TurnState)
    (hact : ∀ s, ((act s).2).calls = s.calls) :
    keeps_calls (await1 env act) := by
  intro s
  unfold await1
  split
  · rfl
  · exact hact _

theorem keeps_calls_send_ws (env : Env) (e : Event) :
    keeps_calls (send_ws env e) :=
  keeps_calls_await1 env _ (fun _ => rfl)

theorem keeps_calls_hw_set (env : Env) (st : String) :
    keeps_calls (hw_set env st) :=
  keeps_calls_await1 env _ (fun _ => rfl)

theorem keeps_calls_tts (env : Env) (text : String) :
    keeps_calls (tts_synthesize env text) :=
  keeps_calls_await1 env _ (fun _ => rfl)

theorem keeps_calls_set_history (f : List Message → List Message) :
    keeps_calls (set_history f) :=
  fun _ => rfl

theorem keeps_calls_tts_and_speak (env : Env) (rt : String) :
    keeps_calls (tts_and_speak env rt) := by
  unfold tts_and_speak
  simp only [bind_def, pure_def]
  apply keeps_calls_bindT (keeps_calls_tts env _)
  intro audio
  cases audio with
  | some path =>
      apply keeps_calls_bindT (keeps_calls_send_ws env _)
      intro _
      apply keeps_calls_bindT (keeps_calls_send_ws env _)
      intro _
      exact keeps_calls_hw_set env _
  | none =>
      apply keeps_calls_bindT (keeps_calls_pureT _)
      intro _
      apply keeps_calls_bindT (keeps_calls_send_ws env _)
      intro _
      exact keeps_calls_hw_set env _

theorem keeps_calls_finish_turn (env : Env) (text rt : String)
    (sm : List (String × String)) : keeps_calls (finish_turn env text rt sm) := by
  unfold finish_turn
  simp only [bind_def, pure_def]
  apply keeps_calls_bindT (keeps_calls_send_ws env _)
  intro _
  apply keeps_calls_bindT (keeps_calls_set_history _)
  intro _
  exact keeps_calls_tts_and_speak env _

theorem keeps_calls_error_handler (env : Env) (m : String) :
    keeps_calls (error_handler env m) := by
  unfold error_handler
  simp only [bind_def]
  apply keeps_calls_bindT (keeps_calls_send_ws env _)
  intro _
  apply keeps_calls_bindT (keeps_calls_send_ws env _)
  intro _
  exact keeps_calls_hw_set env _

/-- The `except` handler dispatches no tools, so `process_message` logs
exactly the dispatches of its `try` body. -/
theorem process_message_calls (env : Env) (text : String) (s : TurnState) :
    ((process_message env text s).2).calls = ((process_body env text s).2).calls := by
  unfold process_message
  rcases hb : process_body env text s with ⟨r, s1⟩
  cases r with
  | ok a => rw [tryExcept_ok hb]
  | cancelled => rw [tryExcept_cancelled hb]
  | exn m => rw [tryExcept_exn hb]; exact keeps_calls_error_handler env m s1

/-- Steps 7-11 dispatch no tools, so the body logs exactly the dispatches
of steps 1-6. -/
theorem process_body_calls (env : Env) (text : String) (s : TurnState) :
    ((process_body env text s).2).calls
      = ((steps_to_response env text s).2).calls := by
  unfold process_body
  simp only [bind_def]
  rcases hsr : steps_to_response env text s with ⟨r, s1⟩
  cases r with
  | ok pr =>
      simp only [bindT, hsr]
      exact keeps_calls_finish_turn env text (shape_response pr.1) pr.2 s1
  | exn e => simp [bindT, hsr]
  | cancelled => simp [bindT, hsr]

/-! ### Inversion lemmas for the success path -/

theorem bindT_ok_inv {α β : Type} {m : TurnM α} {f : α → TurnM β}
    {s s2 : TurnState} {b : β} (h : bindT m f s = (TRes.ok b, s2)) :
    ∃ a s1, m s = (TRes.ok a, s1) ∧ f a s1 = (TRes.ok b, s2) := by
  unfold bindT at h
  rcases hm : m s with ⟨r, s1⟩
  rw [hm] at h
  cases r with
  | ok a => exact ⟨a, s1, rfl, h⟩
  | exn e => simp at h
  | cancelled => simp at h

theorem send_ws_ok_trace {env : Env} {e : Event} {s s1 : TurnState} {r : Unit}
    (h : send_ws env e s = (TRes.ok r, s1)) : s1.trace = s.trace ++ [e] := by
  unfold send_ws await1 at h
  split at h
  · simp at h
  · rw [Prod.mk.injEq] at h
    rw [← h.2]

theorem hw_set_ok_trace {env : Env} {st : String} {s s1 : TurnState} {r : Unit}
    (h : hw_set env st s = (TRes.ok r, s1)) : s1.trace = s.trace := by
  unfold hw_set await1 at h
  split at h
  · simp at h
  · rw [Prod.mk.injEq] at h
    rw [← h.2]

theorem tts_ok_trace {env : Env} {t : String} {s s1 : TurnState}
    {a : Option String} (h : tts_synthesize env t s = (TRes.ok a, s1)) :
    s1.trace = s.trace := by
  unfold tts_synthesize await1 at h
  split at h
  · simp at h
  · rw [Prod.mk.injEq] at h
    rw [← h.2]

theorem pureT_ok_inv {α : Type} {a b : α} {s s1 : TurnState}
    (h : pureT a s = (TRes.ok b, s1)) : s1 = s := by
  unfold pureT at h
  rw [Prod.mk.injEq] at h
  exact h.2.symm

theorem set_history_eq (f : List Message → List Message) (s : TurnState) :
    set_history f s = (TRes.ok (), { s with history := f s.history }) := rfl

/-- When steps 8-11 run to completion, the last event they emitted is the
`speaking` state event. -/
theorem tts_and_speak_ok_trace {env : Env} {rt : String} {s s2 : TurnState}
    (h : tts_and_speak env rt s = (TRes.ok (), s2)) :
    ∃ pre, s2.trace = pre ++ [Event.assistantState "speaking"] := by
  unfold tts_and_speak at h
  simp only [bind_def, pure_def] at h
  obtain ⟨audio, s3, h3, h⟩ := bindT_ok_inv h
  cases audio with
  | some path =>
      obtain ⟨u4, s4, h4, h⟩ := bindT_ok_inv h
      obtain ⟨u5, s5, h5, h⟩ := bindT_ok_inv h
      have hs2 : s2.trace = s5.trace := hw_set_ok_trace h
      have hs5 : s5.trace = s4.trace ++ [Event.assistantState "speaking"] :=
        send_ws_ok_trace h5
      exact ⟨s4.trace, by rw [hs2, hs5]⟩
  | none =>
      obtain ⟨u4, s4, h4, h⟩ := bindT_ok_inv h
      obtain ⟨u5, s5, h5, h⟩ := bindT_ok_inv h
      have hs2 : s2.trace = s5.trace := hw_set_ok_trace h
      have hs5 : s5.trace = s4.trace ++ [Event.assistantState "speaking"] :=
        send_ws_ok_trace h5
      exact ⟨s4.trace, by rw [hs2, hs5]⟩

/-- When the whole `try` body succeeds, its last emitted event is the
`speaking` state event. -/
theorem process_body_ok_trace {env : Env} {text : String} {s s2 : TurnState}
    (h : process_body env text s = (TRes.ok (), s2)) :
    ∃ pre, s2.trace = pre ++ [Event.assistantState "speaking"] := by
  unfold process_body at h
  simp only [bind_def] at h
  obtain ⟨pr, s1, h1, h⟩ := bindT_ok_inv h
  unfold finish_turn at h
  simp only [bind_def] at h
  obtain ⟨u2, s3, h3, h⟩ := bindT_ok_inv h
  obtain ⟨u3, s4, h4, h⟩ := bindT_ok_inv h
  exact tts_and_speak_ok_trace h

/-! ### Helper lemmas for the dispatcher, shaping and history claims -/

theorem retry_loop_zero (beh : Nat → ToolAttempt) :
    retry_loop beh 0 =
      match beh 0 with
      | ToolAttempt.success r => (r, 1)
      | ToolAttempt.timeout =>
          (match beh 1 with
           | ToolAttempt.success r => (r, 2)
           | ToolAttempt.timeout => ({ ok := false, error := some "timeout" }, 2)
           | ToolAttempt.fault m => ({ ok := false, error := some m }, 2))
      | ToolAttempt.fault _ =>
          (match beh 1 with
           | ToolAttempt.success r => (r, 2)
           | ToolAttempt.timeout => ({ ok := false, error := some "timeout" }, 2)
           | ToolAttempt.fault m => ({ ok := false, error := some m }, 2)) := by
  rw [retry_loop]
  cases h0 : beh 0 with
  | success r => simp
  | timeout =>
      simp [MAX_RETRIES]
      rw [retry_loop]
      cases h1 : beh 1 <;> simp [MAX_RETRIES]
  | fault m =>
      simp [MAX_RETRIES]
      rw [retry_loop]
      cases h1 : beh 1 <;> simp [MAX_RETRIES]

theorem trim_history_eq_drop (l : List Message) :
    trim_history l = l.drop (l.length - MAX_HISTORY) := by
  induction l with
  | nil => simp [trim_history]
  | cons m rest ih =>
      unfold trim_history
      by_cases h : MAX_HISTORY < (m :: rest).length
      · rw [if_pos h, ih]
        have hlen : (m :: rest).length - MAX_HISTORY
            = (rest.length - MAX_HISTORY) + 1 := by
          simp only [List.length_cons]
          simp only [List.length_cons] at h
          omega
        rw [hlen, List.drop_succ_cons]
      · rw [if_neg h]
        have hz : (m :: rest).length - MAX_HISTORY = 0 := by
          simp only [List.length_cons]
          simp only [List.length_cons] at h
          omega
        rw [hz, List.drop_zero]

theorem update_history_length (h : List Message) (u a : String) :
    (update_history h u a).length ≤ MAX_HISTORY := by
  unfold update_history
  rw [trim_history_eq_drop, List.length_drop]
  omega

theorem update_history_eq_drop (h : List Message) (u a : String) :
    update_history h u a
      = (h ++ ([{ role := "user", content := u },
                { role := "assistant", content := a }] : List Message)).drop
          ((h.length + 2) - MAX_HISTORY) := by
  unfold update_history
  rw [trim_history_eq_drop]
  congr 1
  simp [List.length_append]

theorem py_take_length (s : String) (n : Nat) : (py_take s n).length ≤ n := by
  show (s.data.take n).length ≤ n
  rw [List.length_take]
  exact min_le_left _ _

theorem py_rstrip_length (s : String) : (py_rstrip s).length ≤ s.length := by
  show ((s.data.reverse.dropWhile Char.isWhitespace).reverse).length ≤ s.data.length
  rw [List.length_reverse]
  calc (s.data.reverse.dropWhile Char.isWhitespace).length
      ≤ s.data.reverse.length := (List.dropWhile_sublist _).length_le
    _ = s.data.length := List.length_reverse _

theorem calls_after_bind_keeps {α β : Type} {m : TurnM α} {f : α → TurnM β}
    (hf : ∀ a, keeps_calls (f a)) (s : TurnState) :
    ((bindT m f s).2).calls = ((m s).2).calls := by
  unfold bindT
  rcases hm : m s with ⟨r, s1⟩
  cases r with
  | ok a => exact hf a s1
  | exn e => rfl
  | cancelled => rfl

theorem keeps_calls_llm_chat (env : Env) (msgs : List Message) (b : Bool) :
    keeps_calls (llm_chat env msgs b) := by
  apply keeps_calls_await1
  intro s
  cases env.llmChat msgs b <;> rfl

/-- With no cancellation in flight, the tool loop dispatches exactly the
calls of its list, in order, whatever the providers return. -/
theorem tool_loop_calls (env : Env) (hc : env.cancelAt = none) :
    ∀ (tcs : List ToolCall) (acc : List Message × List (String × String))
      (s : TurnState),
    ((tool_loop env tcs acc s).2).calls
      = s.calls ++ tcs.map (fun tc => (tc.name, parse_tool_args env tc.arguments)) := by
  intro tcs
  induction tcs with
  | nil => intro acc s; simp [tool_loop, pure_def, pureT]
  | cons tc rest ih =>
      intro acc s
      unfold tool_loop
      simp [tool_loop_step, bind_def, pure_def, bindT, pureT, send_ws,
        tool_exec, await1, hc, ih]

/-- With no cancellation in flight, step 6 dispatches exactly the first
`MAX_TOOL_CALLS_PER_TURN` requested calls, in order. -/
theorem tool_phase_calls (env : Env) (hc : env.cancelAt = none)
    (messages : List Message) (resp : LLMResponse) (s : TurnState) :
    ((tool_phase env messages resp s).2).calls
      = s.calls ++ ((resp.tool_calls.take MAX_TOOL_CALLS_PER_TURN).map
          (fun tc => (tc.name, parse_tool_args env tc.arguments))) := by
  unfold tool_phase
  cases htc : resp.tool_calls with
  | nil => simp [pure_def, pureT]
  | cons tc rest =>
      simp only [bind_def, pure_def]
      rw [calls_after_bind_keeps]
      · rw [tool_loop_calls env hc]
      · intro acc1
        apply keeps_calls_bindT (keeps_calls_llm_chat env _ _)
        intro resp2
        exact keeps_calls_pureT _

theorem steps_to_response_calls (env : Env) (text : String)
    (hist : List Message) (resp : LLMResponse)
    (hc : env.cancelAt = none)
    (h1 : ∀ msgs, env.llmChat msgs true = Except.ok resp) :
    ((steps_to_response env text (init_turn_state hist)).2).calls
      = (resp.tool_calls.take MAX_TOOL_CALLS_PER_TURN).map
          (fun tc => (tc.name, parse_tool_args env tc.arguments)) := by
  simp only [steps_to_response, bind_def, pure_def]
  simp only [bindT, pureT, send_ws, hw_set, llm_chat, await1, get_history,
    init_turn_state, hc, h1, reduceIte, reduceCtorEq]
  rw [tool_phase_calls env hc]
  simp

theorem run_schedule_append (xs ys : List (Nat × SessAction)) (g : List Message)
    (log : List (Nat × Event)) :
    run_schedule (xs ++ ys) g log
      = run_schedule ys (run_schedule xs g log).1 (run_schedule xs g log).2 := by
  induction xs generalizing g log with
  | nil => rfl
  | cons x rest ih => simp [run_schedule, ih]

/-! ### Claims -/

/-- Claim C5 (confirmed): for every tool execution of a known tool name,
the provider is attempted at most `MAX_RETRIES + 1 = 2` times; if every
attempt exceeds the deadline, `execute_tool` returns exactly
`{ok: false, error: "timeout"}` after 2 attempts; if the final attempt
raises any other fault, it returns `{ok: false, error: <that message>}`.
`execute_tool` is a total function into result dicts, so no provider
fault crosses the dispatcher boundary. -/
theorem c5_dispatcher_retry_policy (name : String) (beh : Nat → ToolAttempt) :
    (execute_tool name beh).2 ≤ MAX_RETRIES + 1
    ∧ (name ∈ TOOL_NAMES → beh 0 = ToolAttempt.timeout →
        beh 1 = ToolAttempt.timeout →
        execute_tool name beh = ({ ok := false, error := some "timeout" }, 2))
    ∧ (∀ m, name ∈ TOOL_NAMES → (∀ r, beh 0 ≠ ToolAttempt.success r) →
        beh 1 = ToolAttempt.fault m →
        execute_tool name beh = ({ ok := false, error := some m }, 2)) := by
  refine ⟨?_, ?_, ?_⟩
  · unfold execute_tool
    split
    · rw [retry_loop_zero]
      cases h0 : beh 0 with
      | success r => simp [MAX_RETRIES]
      | timeout => cases h1 : beh 1 <;> simp [MAX_RETRIES]
      | fault m => cases h1 : beh 1 <;> simp [MAX_RETRIES]
    · simp [MAX_RETRIES]
  · intro hmem h0 h1
    unfold execute_tool
    rw [if_pos hmem, retry_loop_zero, h0, h1]
  · intro m hmem h0 h1
    unfold execute_tool
    rw [if_pos hmem, retry_loop_zero]
    cases hb0 : beh 0 with
    | success r => exact absurd hb0 (h0 r)
    | timeout => rw [h1]
    | fault m2 => rw [h1]

/-- Witness for C5 at the concrete tool `get_events` with a provider that
always times out. -/
theorem c5_dispatcher_retry_policy_witness :
    "get_events" ∈ TOOL_NAMES
    ∧ execute_tool "get_events" (fun _ => ToolAttempt.timeout)
        = ({ ok := false, error := some "timeout" }, 2) :=
  ⟨by decide,
   (c5_dispatcher_retry_policy "get_events" (fun _ => ToolAttempt.timeout)).2.1
     (by decide) rfl rfl⟩

/-- A provider behaviour for the C8 counterexample (it would succeed, but
must never be consulted for an unknown name). -/
def c8_provider_beh : Nat → ToolAttempt := fun _ => ToolAttempt.success { ok := true }

/-- Claim C8 (counterexample): dispatching the unknown name "play_music"
does return immediately with `ok: false` and zero attempts consumed, but
the error string is `"Unknown tool: play_music"` — not the exact
`"unknown tool"` the claim states. -/
theorem c8_counterexample :
    execute_tool "play_music" c8_provider_beh
        = ({ ok := false, error := some "Unknown tool: play_music" }, 0)
    ∧ (execute_tool "play_music" c8_provider_beh).1.error ≠ some "unknown tool" := by
  exact ⟨by decide, by decide⟩

/-- Claim C8 (amended): for every name outside the registry the dispatcher
immediately returns `{ok: false, error: "Unknown tool: <name>"}`, with
zero provider attempts — the provider behaviour is never consulted. -/
theorem c8_amended_unknown_tool (name : String) (beh : Nat → ToolAttempt)
    (h : name ∉ TOOL_NAMES) :
    execute_tool name beh
      = ({ ok := false, error := some ("Unknown tool: " ++ name) }, 0) := by
  unfold execute_tool
  rw [if_neg h]

/-- Witness for the amended C8 at the concrete unknown name "play_songs". -/
theorem c8_amended_unknown_tool_witness :
    "play_songs" ∉ TOOL_NAMES
    ∧ execute_tool "play_songs" (fun _ => ToolAttempt.timeout)
        = ({ ok := false, error := some ("Unknown tool: " ++ "play_songs") }, 0) :=
  ⟨by decide, c8_amended_unknown_tool "play_songs" _ (by decide)⟩

/-- Claim C9 (confirmed): the capped append keeps `len(History) ≤
MAX_HISTORY` (the append and trim are one synchronous block with no
suspension point, so this is every observable state), eviction removes
entries exactly from the front of the appended sequence — oldest first,
preserving the order of the rest — and a whole turn preserves the cap
whatever the environment does. -/
theorem c9_history_cap_and_eviction :
    (∀ (h : List Message) (u a : String),
      (update_history h u a).length ≤ MAX_HISTORY
      ∧ update_history h u a
          = (h ++ ([{ role := "user", content := u },
                    { role := "assistant", content := a }] : List Message)).drop
              ((h.length + 2) - MAX_HISTORY))
    ∧ ∀ (env : Env) (text : String) (s : TurnState),
        s.history.length ≤ MAX_HISTORY →
        ((run_turn env text s).2).history.length ≤ MAX_HISTORY := by
  constructor
  · intro h u a
    exact ⟨update_history_length h u a, update_history_eq_drop h u a⟩
  · intro env text s hs
    rcases run_turn_history_cases env text s with hunch | ⟨rt, sm, _, hupd⟩
    · rw [hunch]; exact hs
    · rw [hupd]; exact update_history_length _ _ _

/-- One environment whose turn succeeds, for the C9 witness. -/
def c9_env : Env := { llmChat := fun _ _ => Except.ok { content := "Ok." } }

/-- Witness for C9: a full history of 10 messages stays capped at 10 both
through `update_history` and through a complete turn. -/
theorem c9_history_cap_and_eviction_witness :
    (update_history (List.replicate MAX_HISTORY
        ({ role := "user", content := "x" } : Message)) "u" "a").length ≤ MAX_HISTORY
    ∧ ((run_turn c9_env "hi" (init_turn_state (List.replicate MAX_HISTORY
        ({ role := "user", content := "x" } : Message)))).2).history.length
        ≤ MAX_HISTORY :=
  ⟨(c9_history_cap_and_eviction.1 _ "u" "a").1,
   c9_history_cap_and_eviction.2 c9_env "hi" _ (by decide)⟩

/-- A 481-character reasoning response for the C4 counterexample. -/
def c4_long_response : String := String.mk (List.replicate 481 'a')

/-- An environment whose reasoning call returns the 481-character text. -/
def c4_env : Env := { llmChat := fun _ _ => Except.ok { content := c4_long_response } }

/-- Claim C4 (counterexample): with a 481-character response of letters the
emitted `assistant_text` text is the 480-character cut plus the appended
ellipsis — 483 characters, strictly more than `MAX_RESPONSE_CHARS`, so the
claimed 480 bound on the emitted text is false. -/
theorem c4_counterexample :
    Event.assistantText (shape_response c4_long_response) []
        ∈ ((run_turn c4_env "hi" (init_turn_state [])).2).trace
    ∧ (shape_response c4_long_response).length = MAX_RESPONSE_CHARS + 3
    ∧ MAX_RESPONSE_CHARS < (shape_response c4_long_response).length := by
  exact ⟨by decide, by decide, by decide⟩

/-- Claim C4 (amended): the emitted text is at most `MAX_RESPONSE_CHARS + 3`
characters (480 plus the appended 3-character ellipsis); when the response
was longer than 480 and got truncated, either the cut landed on `.`, `!`
or `?` and the text is at most 480 characters, or an ellipsis was appended
to a cut of at most 480 characters. -/
theorem c4_amended_response_shaping (content : String) :
    (shape_response content).length ≤ MAX_RESPONSE_CHARS + 3
    ∧ (MAX_RESPONSE_CHARS < content.length →
        (ends_sentence (shape_response content) = true
            ∧ (shape_response content).length ≤ MAX_RESPONSE_CHARS)
        ∨ ∃ t, shape_response content = t ++ "..." ∧ t.length ≤ MAX_RESPONSE_CHARS) := by
  have hcut : (py_rstrip (py_take content MAX_RESPONSE_CHARS)).length
      ≤ MAX_RESPONSE_CHARS :=
    le_trans (py_rstrip_length _) (py_take_length _ _)
  constructor
  · simp only [shape_response]
    split
    · decide
    · split
      · split
        · omega
        · rw [String.length_append]
          have h3 : ("...").length = 3 := by decide
          omega
      · next h2 => omega
  · intro hlong
    have hne : content ≠ "" := by
      intro he
      rw [he] at hlong
      revert hlong
      decide
    simp only [shape_response]
    rw [if_neg hne, if_pos hlong]
    split
    · next hends => exact Or.inl ⟨hends, hcut⟩
    · exact Or.inr ⟨_, rfl, hcut⟩

/-- Witness for the amended C4 at a concrete 481-character response. -/
theorem c4_amended_response_shaping_witness :
    (shape_response (String.mk (List.replicate 481 'b'))).length
        ≤ MAX_RESPONSE_CHARS + 3
    ∧ ((ends_sentence (shape_response (String.mk (List.replicate 481 'b'))) = true
          ∧ (shape_response (String.mk (List.replicate 481 'b'))).length
              ≤ MAX_RESPONSE_CHARS)
        ∨ ∃ t, shape_response (String.mk (List.replicate 481 'b')) = t ++ "..."
            ∧ t.length ≤ MAX_RESPONSE_CHARS) := by
  have h := c4_amended_response_shaping (String.mk (List.replicate 481 'b'))
  exact ⟨h.1, h.2 (by decide)⟩

/-- An environment whose reasoning call always raises, for C6. -/
def c6_env : Env := { llmChat := fun _ _ => Except.error "boom" }

/-- Claim C6 (confirmed): with no cancellation in flight, (i) whenever the
`try` body aborts with an unhandled fault, the turn emits exactly the
handler pair `error{message, recoverable: true}` then `assistant_state
idle` after whatever the body had emitted, and the body itself emitted no
error event — so the turn carries exactly one error event, immediately
followed by the idle state event; (ii) in Scenario B, where the reasoning
service call raises, the whole turn trace is `[thinking, error, idle]`
with no `tool_status` event and no tool dispatched. -/
theorem c6_error_path (env : Env) (text : String) (hist : List Message)
    (m : String) (hc : env.cancelAt = none) :
    ((process_body env text (init_turn_state hist)).1 = TRes.exn m →
        (process_message env text (init_turn_state hist)).2.trace
          = (process_body env text (init_turn_state hist)).2.trace
              ++ [Event.error m true, Event.assistantState "idle"]
        ∧ count_errors ((process_body env text (init_turn_state hist)).2.trace) = 0)
    ∧ ((∀ msgs b, env.llmChat msgs b = Except.error m) →
        (process_message env text (init_turn_state hist)).2.trace
          = [Event.assistantState "thinking", Event.error m true,
             Event.assistantState "idle"]
        ∧ (process_message env text (init_turn_state hist)).2.calls = []) := by
  constructor
  · intro hexn
    rcases hb : process_body env text (init_turn_state hist) with ⟨r, s1⟩
    rw [hb] at hexn
    simp only at hexn
    subst hexn
    have hcount := adds_no_error_process_body env text (init_turn_state hist)
    rw [hb] at hcount
    unfold process_message
    rw [tryExcept_exn hb]
    constructor
    · simp [error_handler, bind_def, bindT, send_ws, hw_set, await1, hc]
    · simpa [init_turn_state, count_errors] using hcount
  · intro hllm
    simp [process_message, process_body, steps_to_response, bind_def, pure_def,
      bindT, pureT, send_ws, hw_set, llm_chat, await1, get_history, tryExcept,
      error_handler, init_turn_state, hc, hllm]

/-- Witness for C6 with the always-raising reasoning service. -/
theorem c6_error_path_witness :
    (process_message c6_env "hi" (init_turn_state [])).2.trace
      = [Event.assistantState "thinking", Event.error "boom" true,
         Event.assistantState "idle"]
    ∧ (process_message c6_env "hi" (init_turn_state [])).2.calls = []
    ∧ count_errors ((process_body c6_env "hi" (init_turn_state [])).2.trace) = 0 := by
  have h := c6_error_path c6_env "hi" [] "boom" rfl
  have h2 := h.2 (fun _ _ => rfl)
  exact ⟨h2.1, h2.2, (h.1 (by decide)).2⟩

/-- A reasoning response carrying three tool calls, for the C7 witness. -/
def c7_resp : LLMResponse :=
  { content := "",
    tool_calls := [{ name := "get_events" }, { name := "spotify_search_link" },
                   { name := "get_events" }] }

/-- An environment requesting three tool calls on the first reasoning
call, for the C7 witness. -/
def c7_env : Env :=
  { llmChat := fun _ b =>
      if b then Except.ok c7_resp else Except.ok { content := "Done." } }

/-- Claim C7 (confirmed): with no cancellation in flight, the turn
dispatches exactly the first `MAX_TOOL_CALLS_PER_TURN` (2) requested tool
calls, in the order requested, even when the reasoning response carries
more; and over every environment the number of dispatches per turn is
bounded by 2. -/
theorem c7_tool_call_truncation (env : Env) (text : String)
    (hist : List Message) (resp : LLMResponse)
    (hc : env.cancelAt = none)
    (h1 : ∀ msgs, env.llmChat msgs true = Except.ok resp) :
    ((process_message env text (init_turn_state hist)).2).calls
        = (resp.tool_calls.take MAX_TOOL_CALLS_PER_TURN).map
            (fun tc => (tc.name, parse_tool_args env tc.arguments))
    ∧ ((process_message env text (init_turn_state hist)).2).calls.map Prod.fst
        = (resp.tool_calls.take MAX_TOOL_CALLS_PER_TURN).map ToolCall.name
    ∧ ∀ (env2 : Env) (t2 : String) (s : TurnState),
        ((process_message env2 t2 s).2).calls.length
          ≤ s.calls.length + MAX_TOOL_CALLS_PER_TURN := by
  have hcalls : ((process_message env text (init_turn_state hist)).2).calls
      = (resp.tool_calls.take MAX_TOOL_CALLS_PER_TURN).map
          (fun tc => (tc.name, parse_tool_args env tc.arguments)) := by
    rw [process_message_calls, process_body_calls]
    exact steps_to_response_calls env text hist resp hc h1
  refine ⟨hcalls, ?_, fun env2 t2 s => calls_bounded_process_message env2 t2 s⟩
  rw [hcalls, List.map_map]
  rfl

/-- Witness for C7: three requested calls, exactly the first two
dispatched in order. -/
theorem c7_tool_call_truncation_witness :
    ((process_message c7_env "tonight" (init_turn_state [])).2).calls.map Prod.fst
      = ["get_events", "spotify_search_link"]
    ∧ ((process_message c7_env "tonight" (init_turn_state [])).2).calls.length
        ≤ (init_turn_state []).calls.length + MAX_TOOL_CALLS_PER_TURN := by
  have h := c7_tool_call_truncation c7_env "tonight" [] c7_resp rfl (fun _ => rfl)
  constructor
  · rw [h.2.1]
    decide
  · exact h.2.2 c7_env "tonight" (init_turn_state [])

/-- The first turn of the C2 counterexample: cancelled at its reasoning
call (suspension point 2), as when new chat text arrives mid-turn. -/
def c2_env_first : Env :=
  { cancelAt := some 2,
    llmChat := fun _ _ => Except.ok { content := "First answer." } }

/-- The second turn of the C2 counterexample: runs to completion. -/
def c2_env_second : Env :=
  { llmChat := fun _ _ => Except.ok { content := "Sure." } }

/-- Claim C2 (counterexample): in a barge-in schedule the cancelled turn's
task does emit one more outbound event after the cancellation is observed:
the `assistant_state idle` of `run_turn`'s `finally: await set_idle_state()`
cleanup. Its trace is `[thinking, idle]`, and on the session's wire that
idle appears strictly between the cancelled turn's last pre-cancellation
event (`thinking`, index 0) and the next turn's `thinking` (index 2) —
contradicting the claim that no event of the cancelled turn appears there. -/
theorem c2_counterexample :
    (run_turn c2_env_first "hello" (init_turn_state [])).1 = TRes.cancelled
    ∧ (run_turn c2_env_first "hello" (init_turn_state [])).2.trace
        = [Event.assistantState "thinking", Event.assistantState "idle"]
    ∧ session_events 0 (run_schedule
        [(0, SessAction.chatMsg "hello" c2_env_first),
         (0, SessAction.chatMsg "again" c2_env_second)] [] []).2
      = [Event.assistantState "thinking", Event.assistantState "idle",
         Event.assistantState "thinking", Event.assistantText "Sure." [],
         Event.assistantState "speaking", Event.assistantState "idle"] := by
  exact ⟨by decide, by decide, by decide⟩

/-- Claim C2 (amended): once a turn observes the cancellation inside the
pipeline body, it emits no error event and no further pipeline event; the
only event its task adds before finishing is the single `assistant_state
idle` of the `finally` cleanup (which the spec attributes to the
controller), and the task re-raises the cancellation. -/
theorem c2_amended_cancel_cleanup (env : Env) (text : String) (s : TurnState)
    (h : (process_body env text s).1 = TRes.cancelled) :
    (run_turn env text s).1 = TRes.cancelled
    ∧ (run_turn env text s).2.trace
        = (process_body env text s).2.trace ++ [Event.assistantState "idle"]
    ∧ count_errors ((process_body env text s).2.trace) = count_errors s.trace := by
  rcases hb : process_body env text s with ⟨r, s1⟩
  rw [hb] at h
  simp only at h
  subst h
  have hmsg : process_message env text s = (TRes.cancelled, s1) := by
    unfold process_message
    exact tryExcept_cancelled hb
  have hcount := adds_no_error_process_body env text s
  rw [hb] at hcount
  refine ⟨?_, ?_, hcount⟩
  · rw [run_turn_cancelled_iff, hmsg]
  · rw [run_turn_state, hmsg]
    rfl

/-- The environment of the C2 witness: cancelled at the reasoning call. -/
def c2w_env : Env :=
  { cancelAt := some 2, llmChat := fun _ _ => Except.ok { content := "Hi." } }

/-- Witness for the amended C2: the cancelled turn's whole task trace is
its body trace plus exactly one idle event, with no error event. -/
theorem c2_amended_cancel_cleanup_witness :
    (run_turn c2w_env "hey" (init_turn_state [])).1 = TRes.cancelled
    ∧ (run_turn c2w_env "hey" (init_turn_state [])).2.trace
        = (process_body c2w_env "hey" (init_turn_state [])).2.trace
            ++ [Event.assistantState "idle"]
    ∧ count_errors ((process_body c2w_env "hey" (init_turn_state [])).2.trace)
        = count_errors (init_turn_state []).trace :=
  c2_amended_cancel_cleanup c2w_env "hey" (init_turn_state []) (by decide)

/-- The C3 counterexample turn: cancelled at the TTS suspension point
(number 4), after `assistant_text` went out and the history was updated. -/
def c3_env : Env :=
  { cancelAt := some 4,
    llmChat := fun _ _ => Except.ok { content := "Hello there." } }

/-- Claim C3 (counterexample): a turn cancelled at the speech-synthesis
suspension point ends cancelled, yet the History now holds the new
(user, assistant) pair — History is not unchanged after every cancelled
turn, because the update (step 8) precedes TTS (step 9). -/
theorem c3_counterexample :
    (run_turn c3_env "hi" (init_turn_state [])).1 = TRes.cancelled
    ∧ (run_turn c3_env "hi" (init_turn_state [])).2.history
        = [{ role := "user", content := "hi" },
           { role := "assistant", content := "Hello there." }]
    ∧ (run_turn c3_env "hi" (init_turn_state [])).2.history ≠ ([] : List Message) := by
  exact ⟨by decide, by decide, by decide⟩

/-- Claim C3 (amended): after any turn the History is either unchanged or
exactly the capped append of the (user, shaped assistant) exchange, and
the latter happens only when the turn's `assistant_text` event was
emitted; in particular every turn that ends cancelled or errored before
emitting `assistant_text` leaves the History unchanged, while a
cancellation or error after that emission (e.g. during TTS) leaves the
appended pair in place. -/
theorem c3_amended_history_frame (env : Env) (text : String) (s : TurnState) :
    (((run_turn env text s).2).history = s.history
      ∨ ∃ rt sm, Event.assistantText rt sm ∈ ((run_turn env text s).2).trace
          ∧ ((run_turn env text s).2).history = update_history s.history text rt)
    ∧ ((∀ rt sm, Event.assistantText rt sm ∉ ((run_turn env text s).2).trace) →
        ((run_turn env text s).2).history = s.history) := by
  have h := run_turn_history_cases env text s
  refine ⟨h, ?_⟩
  intro hno
  rcases h with h | ⟨rt, sm, hmem, _⟩
  · exact h
  · exact absurd hmem (hno rt sm)

/-- The C3 witness turn: the reasoning call raises, so no `assistant_text`
is emitted. -/
def c3w_env : Env := { llmChat := fun _ _ => Except.error "llm down" }

/-- Witness for the amended C3: an errored turn emitted no
`assistant_text`, so its History is unchanged. -/
theorem c3_amended_history_frame_witness :
    ((run_turn c3w_env "hi" (init_turn_state [])).2).history = ([] : List Message) := by
  have h := (c3_amended_history_frame c3w_env "hi" (init_turn_state [])).2
  have htr : (run_turn c3w_env "hi" (init_turn_state [])).2.trace
      = [Event.assistantState "thinking", Event.error "llm down" true,
         Event.assistantState "idle", Event.assistantState "idle"] := by decide
  exact h (fun rt sm => by rw [htr]; simp)

/-- A successful-turn environment for the C10 witness. -/
def c10_env : Env := { llmChat := fun _ _ => Except.ok { content := "Done." } }

/-- Claim C10 (confirmed): whatever the outcome, when the turn task
finishes its `finally` cleanup emits the `assistant_state idle` event and
sets the actuator to idle — the task's trace is its pipeline trace plus
one final idle and its actuator log ends in idle; and when the pipeline
body succeeded, the trace ends `[..., speaking, idle]`, so even a
successful turn's speaking state event is followed by the idle event
before the task completes (and hence before any later turn's events). -/
theorem c10_idle_after_every_turn (env : Env) (text : String) (s : TurnState) :
    (run_turn env text s).2.trace
        = (process_message env text s).2.trace ++ [Event.assistantState "idle"]
    ∧ (run_turn env text s).2.hw
        = (process_message env text s).2.hw ++ ["idle"]
    ∧ ((process_body env text s).1 = TRes.ok () →
        ∃ pre, (run_turn env text s).2.trace
            = pre ++ [Event.assistantState "speaking", Event.assistantState "idle"]) := by
  refine ⟨by rw [run_turn_state]; rfl, by rw [run_turn_state]; rfl, ?_⟩
  intro hok
  rcases hb : process_body env text s with ⟨r, s2⟩
  rw [hb] at hok
  simp only at hok
  subst hok
  have hmsg : process_message env text s = (TRes.ok (), s2) := by
    unfold process_message
    exact tryExcept_ok hb
  obtain ⟨pre, hpre⟩ := process_body_ok_trace hb
  rw [run_turn_state, hmsg]
  exact ⟨pre, by simp [set_idle_state, hpre]⟩

/-- Witness for C10 with a successful turn. -/
theorem c10_idle_after_every_turn_witness :
    (run_turn c10_env "hi" (init_turn_state [])).2.hw
        = (process_message c10_env "hi" (init_turn_state [])).2.hw ++ ["idle"]
    ∧ ∃ pre, (run_turn c10_env "hi" (init_turn_state [])).2.trace
        = pre ++ [Event.assistantState "speaking", Event.assistantState "idle"] := by
  have h := c10_idle_after_every_turn c10_env "hi" (init_turn_state [])
  exact ⟨h.2.1, h.2.2 (by decide)⟩

/-- The C1 environment: the reply depends on how many messages the prompt
holds, so it depends on the shared history. -/
def c1_env : Env :=
  { llmChat := fun msgs _ => Except.ok
      { content := if 3 < msgs.length then "I remember you." else "Nice to meet you." } }

/-- A prior exchange sitting in the shared module-level history. -/
def c1_history : List Message :=
  [{ role := "user", content := "My name is Sam." },
   { role := "assistant", content := "Hi Sam!" }]

/-- Claim C1 (counterexample): the same inbound event in session 0 —
`chat "Do you know me?"` under the same environment — produces different
outputs on session 0's own WebSocket depending on whether session 1
connected in between: the connect runs `brain.clear_history()` on the
module-level `_chat_history` that session 0's turn reads, so sessions do
share mutable state and one session's events change another's outputs. -/
theorem c1_counterexample :
    session_events 0 (run_schedule
        [(0, SessAction.chatMsg "Do you know me?" c1_env)] c1_history []).2
      ≠ session_events 0 (run_schedule
          [(1, SessAction.connect),
           (0, SessAction.chatMsg "Do you know me?" c1_env)] c1_history []).2
    ∧ Event.assistantText "I remember you." [] ∈ session_events 0 (run_schedule
        [(0, SessAction.chatMsg "Do you know me?" c1_env)] c1_history []).2
    ∧ Event.assistantText "Nice to meet you." [] ∈ session_events 0 (run_schedule
        [(1, SessAction.connect),
         (0, SessAction.chatMsg "Do you know me?" c1_env)] c1_history []).2 := by
  exact ⟨by decide, by decide, by decide⟩

/-- Claim C1 (amended): sessions share the one module-level History. After
any schedule prefix `p` of other sessions' actions, a session's turn runs
against exactly the shared history `p` left behind; a `connect` in any
session resets that shared history to `[]` for everyone; and the prompt a
turn sends to the reasoning service embeds the shared history verbatim
after the system message. -/
theorem c1_amended_shared_history (p : List (Nat × SessAction))
    (g : List Message) (log : List (Nat × Event)) (a b : Nat)
    (text : String) (env : Env) :
    (run_schedule (p ++ [(a, SessAction.chatMsg text env)]) g log).1
        = ((run_turn env text (init_turn_state (run_schedule p g log).1)).2).history
    ∧ (run_schedule (p ++ [(b, SessAction.connect)]) g log).1 = []
    ∧ ∀ sc pc, List.drop 1 (build_messages sc text pc (run_schedule p g log).1)
        = (run_schedule p g log).1 ++ [{ role := "user", content := text }] := by
  refine ⟨?_, ?_, ?_⟩
  · rw [run_schedule_append]
    rfl
  · rw [run_schedule_append]
    rfl
  · intro sc pc
    rfl

end Vuddy
